import Mathlib

/-!
# Verification of the `test_network` scan engine

Shallow embedding of the three Python sources (`net_probe.py`,
`ping_monitor.py`, `tcping_monitor.py`).  IPv4 addresses are modelled as
natural numbers below `2^32`; durations and latencies as rationals; the
outside world (ping replies, TCP connect outcomes, ping-process output)
enters through explicit oracle functions; side effects (probe attempts,
log writes, pacing sleeps) are made visible as explicit event traces.
-/

namespace NetProbe

/-! ## Address enumerator (`expand_network`, `net_probe.py` lines 36-38)

`ipaddress.ip_network(cidr, strict=False)` masks the host bits off, and
`.hosts()` yields every address of the block except the network and
broadcast addresses when the prefix is shorter than /31; for /31 it
yields both addresses and for /32 the single address. -/

/-- Number of addresses in a block with the given prefix length. -/
def blockSize (p : Nat) : Nat := 2 ^ (32 - p)

/-- The network (base) address of the block containing `addr`
(`strict=False` masks the host bits). -/
def networkAddr (addr p : Nat) : Nat := addr - addr % blockSize p

/-- The broadcast (last) address of the block containing `addr`. -/
def broadcastAddr (addr p : Nat) : Nat := networkAddr addr p + blockSize p - 1

/-- `ipaddress.ip_network(cidr, strict=False).hosts()` as a list of
numeric addresses, in ascending order. -/
def hostsOf (addr p : Nat) : List Nat :=
  let net := networkAddr addr p
  if 31 ≤ p then (List.range (blockSize p)).map (fun i => net + i)
  else (List.range (blockSize p - 2)).map (fun i => net + 1 + i)

/-- `expand_network` (`net_probe.py` line 36): the list of usable host
addresses of the network. (The Python version renders each as a dotted
string; we keep the numeric address, rendering is `ipStr` below.) -/
def expand_network (addr p : Nat) : List Nat := hostsOf addr p

/-- Dotted-quad rendering of a numeric IPv4 address. -/
def ipStr (n : Nat) : String :=
  toString (n / 2 ^ 24 % 256) ++ "." ++ toString (n / 2 ^ 16 % 256) ++ "."
    ++ toString (n / 2 ^ 8 % 256) ++ "." ++ toString (n % 256)

/-- CIDR rendering `a.b.c.d/p` of a (masked) network. -/
def cidrStr (c : Nat × Nat) : String :=
  ipStr (networkAddr c.1 c.2) ++ "/" ++ toString c.2

/-! ## Probe configurations

`ping_scan` and `tcp_scan` sections of `config.yaml`, as consumed by the
probing functions. -/

/-- The `ping_scan` configuration (`timeout`, `retry`, `rate_limit`,
`threads`). -/
structure PingCfg where
  timeout : ℚ
  retry : Nat
  rate_limit : ℚ
  threads : Nat

/-- The `tcp_scan` configuration. `ports` is the explicit list for
`list` mode; `range_start`/`range_end` the bounds for `range` mode. -/
structure TcpCfg where
  enable : Bool
  mode : String
  ports : List Nat
  range_start : Nat
  range_end : Nat
  timeout : ℚ
  retry : Nat
  rate_limit : ℚ

/-! ## Retrying prober (`ping_worker` lines 94-100, `tcp_with_retry`
lines 148-154)

Both loop `for _ in range(cfg["retry"] + 1)`: probe once, sleep
`rate_limit`, and return on success.  The probe outcome on the `i`-th
attempt is an oracle `Nat → Bool × Option ℚ` standing for `ping_once` /
`tcp_connect_once` (success flag, latency in ms — `none` on failure).
The visible behaviour is an event trace of attempts and sleeps. -/

/-- A visible step of a retrying prober: one probe attempt (with its
outcome) or one pacing sleep of duration `d`. -/
inductive PEvent where
  | attempt (ok : Bool) : PEvent
  | sleep (d : ℚ) : PEvent
deriving DecidableEq

/-- Whether an event is a probe attempt. -/
def isAttempt : PEvent → Bool
  | .attempt _ => true
  | .sleep _ => false

/-- Number of probe attempts recorded in a trace. -/
def attemptCount (evs : List PEvent) : Nat := evs.countP isAttempt

/-- `ping_worker`'s loop, fuel = remaining iterations, `i` = index of
the next attempt.  Mirrors lines 95-99: probe, sleep, return on
success. -/
def ping_worker_go (ip : String) (oracle : Nat → Bool × Option ℚ)
    (rate : ℚ) (i : Nat) : Nat → Option (String × Option ℚ) × List PEvent
  | 0 => (none, [])
  | fuel + 1 =>
    let r := oracle i
    let evs := [PEvent.attempt r.1, PEvent.sleep rate]
    if r.1 then (some (ip, r.2), evs)
    else
      let rest := ping_worker_go ip oracle rate (i + 1) fuel
      (rest.1, evs ++ rest.2)

/-- `ping_worker` (`net_probe.py` lines 94-100): up to `retry + 1`
attempts, sleeping `rate_limit` after each; returns `(ip, cost)` on the
first success, `None` after exhausting the budget. -/
def ping_worker (ip : String) (oracle : Nat → Bool × Option ℚ)
    (cfg : PingCfg) : Option (String × Option ℚ) × List PEvent :=
  ping_worker_go ip oracle cfg.rate_limit 0 (cfg.retry + 1)

/-- `tcp_with_retry`'s loop, same shape as `ping_worker_go`
(lines 149-153). -/
def tcp_with_retry_go (oracle : Nat → Bool × Option ℚ)
    (rate : ℚ) (i : Nat) : Nat → (Bool × Option ℚ) × List PEvent
  | 0 => ((false, none), [])
  | fuel + 1 =>
    let r := oracle i
    let evs := [PEvent.attempt r.1, PEvent.sleep rate]
    if r.1 then ((true, r.2), evs)
    else
      let rest := tcp_with_retry_go oracle rate (i + 1) fuel
      (rest.1, evs ++ rest.2)

/-- `tcp_with_retry` (`net_probe.py` lines 148-154): up to `retry + 1`
attempts, sleeping `rate_limit` after each; `(True, cost)` on the first
success, `(False, None)` after exhausting the budget. -/
def tcp_with_retry (oracle : Nat → Bool × Option ℚ)
    (cfg : TcpCfg) : (Bool × Option ℚ) × List PEvent :=
  tcp_with_retry_go oracle cfg.rate_limit 0 (cfg.retry + 1)

/-- How many attempts the retry loop actually issues, starting at
attempt index `i` with the given fuel. -/
def attemptsUsedGo (oracle : Nat → Bool × Option ℚ) (i : Nat) : Nat → Nat
  | 0 => 0
  | fuel + 1 => if (oracle i).1 then 1 else attemptsUsedGo oracle (i + 1) fuel + 1

/-- Attempts issued by a retry budget of `r` retries (`r + 1` tries). -/
def attemptsUsed (oracle : Nat → Bool × Option ℚ) (r : Nat) : Nat :=
  attemptsUsedGo oracle 0 (r + 1)

/-- The trace of `k` paced attempts starting at index `i`: each attempt
immediately followed by a `rate` sleep. -/
def pacedTrace (oracle : Nat → Bool × Option ℚ) (rate : ℚ) (i : Nat) :
    Nat → List PEvent
  | 0 => []
  | k + 1 =>
      PEvent.attempt (oracle i).1 :: PEvent.sleep rate ::
        pacedTrace oracle rate (i + 1) k

/-- A trace is well paced when it is a sequence of (attempt, sleep
`rate`) pairs: every attempt — failed, successful, or final — is
immediately followed by a sleep of exactly `rate`. -/
def wellPaced (rate : ℚ) : List PEvent → Bool
  | [] => true
  | PEvent.attempt _ :: PEvent.sleep d :: evs =>
      decide (d = rate) && wellPaced rate evs
  | _ :: _ => false

/-! ## Port-list construction (`build_port_list`, lines 157-172)

`list` returns the configured ports, `range` the inclusive integer
range, `full` all ports 1-65535 — and `full` additionally rewrites the
TCP config once, setting `retry = 0` and
`rate_limit = max(rate_limit, 0.1)`.  An unknown mode raises
`ValueError`. -/

/-- `build_port_list` (`net_probe.py` lines 157-172).  Returns the port
list together with the (possibly rewritten) TCP config; the Python
version mutates `cfg` in place, which we model by returning the new
value. -/
def build_port_list (cfg : TcpCfg) : Except String (List Nat × TcpCfg) :=
  if cfg.mode = "list" then .ok (cfg.ports, cfg)
  else if cfg.mode = "range" then
    .ok (List.range' cfg.range_start (cfg.range_end + 1 - cfg.range_start), cfg)
  else if cfg.mode = "full" then
    .ok (List.range' 1 65535,
      { cfg with retry := 0, rate_limit := max cfg.rate_limit (1 / 10) })
  else .error ("未知 tcp_scan.mode: " ++ cfg.mode)

/-! ## TCP phase (`main`, lines 211-219)

`port_stats = {p: {"total": 0, "success": 0} for p in ports}` (line
190); then for every alive ip, for every port: `total += 1`, run
`tcp_with_retry`, and on success `success += 1` and print
`[TCP OK] ip:port cost ms`. -/

/-- One port's counters (`{"total": .., "success": ..}`). -/
structure Stats where
  total : Nat
  success : Nat
deriving DecidableEq

/-- `port_stats` initialisation (line 190): all counters zero. -/
def initStats : Nat → Stats := fun _ => ⟨0, 0⟩

/-- A `[TCP OK] ip:port cost ms` console line, kept structured. -/
abbrev TcpPrint := String × Nat × Option ℚ

/-- Output of (part of) the TCP phase: the updated counters, the
success lines printed so far (in print order), and the attempt count
actually sent on the wire. -/
structure TcpOut where
  stats : Nat → Stats
  prints : List TcpPrint
  attempts : Nat

/-- One inner-loop iteration of the TCP phase (lines 215-219) on a
single `(ip, port)` pair: bump `total`, run the retry wrapper, and on
success bump `success` and print. -/
def tcpProbeStep (oracle : String → Nat → Nat → Bool × Option ℚ)
    (cfg : TcpCfg) (ip : String) (port : Nat) (stats : Nat → Stats) :
    TcpOut :=
  let stats1 : Nat → Stats := fun q =>
    if q = port then { stats q with total := (stats q).total + 1 }
    else stats q
  let r := tcp_with_retry (oracle ip port) cfg
  if r.1.1 then
    { stats := fun q =>
        if q = port then { stats1 q with success := (stats1 q).success + 1 }
        else stats1 q,
      prints := [(ip, port, r.1.2)],
      attempts := attemptCount r.2 }
  else
    { stats := stats1, prints := [], attempts := attemptCount r.2 }

/-- The inner `for port in ports` loop for one alive ip. -/
def tcpScanHost (oracle : String → Nat → Nat → Bool × Option ℚ)
    (cfg : TcpCfg) (ip : String) :
    List Nat → (Nat → Stats) → TcpOut
  | [], stats => { stats := stats, prints := [], attempts := 0 }
  | port :: ports, stats =>
      let s1 := tcpProbeStep oracle cfg ip port stats
      let rest := tcpScanHost oracle cfg ip ports s1.stats
      { stats := rest.stats, prints := s1.prints ++ rest.prints,
        attempts := s1.attempts + rest.attempts }

/-- The outer `for ip in alive_ips` loop (lines 213-219). -/
def tcpScan (oracle : String → Nat → Nat → Bool × Option ℚ)
    (cfg : TcpCfg) (ports : List Nat) :
    List String → (Nat → Stats) → TcpOut
  | [], stats => { stats := stats, prints := [], attempts := 0 }
  | ip :: ips, stats =>
      let s1 := tcpScanHost oracle cfg ip ports stats
      let rest := tcpScan oracle cfg ports ips s1.stats
      { stats := rest.stats, prints := s1.prints ++ rest.prints,
        attempts := s1.attempts + rest.attempts }

/-! ## Precheck (`precheck_networks`, lines 59-78)

For each configured network in order, count its usable hosts; raise
`RuntimeError` naming the network, its count and the ceiling as soon as
one exceeds `max_hosts`.  (The optional console estimate of lines 70-78
is informational output and is not modelled.) -/

/-- The exact `RuntimeError` message of lines 65-67. -/
def precheckMsg (c : Nat × Nat) (count maxHosts : Nat) : String :=
  "网段 " ++ cidrStr c ++ " 主机数 " ++ toString count
    ++ " 超过限制 " ++ toString maxHosts ++ "，已拒绝扫描"

/-- The `for cidr in networks` loop of lines 62-68, accumulating
`total_hosts`. -/
def precheckGo (maxHosts : Nat) :
    List (Nat × Nat) → Nat → Except String Nat
  | [], total => .ok total
  | c :: rest, total =>
      let count := (hostsOf c.1 c.2).length
      if maxHosts < count then .error (precheckMsg c count maxHosts)
      else precheckGo maxHosts rest (total + count)

/-- `precheck_networks` (`net_probe.py` lines 59-68): either the total
usable-host count, or the rejection message of the first offending
network. -/
def precheck_networks (networks : List (Nat × Nat)) (maxHosts : Nat) :
    Except String Nat :=
  precheckGo maxHosts networks 0

/-! ## Orchestrator (`main`, lines 179-230)

The run is modelled as a trace of externally visible effects: probe
attempts on the wire, appends to a per-network log, and the lines of
the final summary block (kept structured, with the percentage as an
exact rational). -/

/-- An externally visible effect of a scan run. -/
inductive Effect where
  | probe (target : String) : Effect
  | netLog (cidr line : String) : Effect
  | summaryAlive (n : Nat) : Effect
  | summaryPort (port total success : Nat) (rate : ℚ) : Effect
deriving DecidableEq

/-- Whether an effect writes to a log file (per-network or summary). -/
def Effect.isLogWrite : Effect → Bool
  | .netLog _ _ => true
  | .summaryAlive _ => true
  | .summaryPort _ _ _ _ => true
  | .probe _ => false

/-- Whether an effect is a probe on the wire. -/
def Effect.isProbe : Effect → Bool
  | .probe _ => true
  | _ => false

/-- The per-port percentage of line 227:
`(s["success"] / s["total"] * 100) if s["total"] else 0`. -/
def rateOf (s : Stats) : ℚ :=
  if s.total ≠ 0 then (s.success : ℚ) / (s.total : ℚ) * 100 else 0

/-- The summary block of lines 222-228, one structured effect per
written line. -/
def summaryEffects (aliveCount : Nat) (ports : List Nat)
    (stats : Nat → Stats) : List Effect :=
  Effect.summaryAlive aliveCount ::
    ports.map (fun p =>
      Effect.summaryPort p (stats p).total (stats p).success
        (rateOf (stats p)))

/-- `ping_scan_network` (lines 103-128): expand the network, probe
every host with `ping_worker` through the pool, log every success.
Completion order of the pool is abstracted as submission order; the
probe-attempt effects of each worker come from its event trace. -/
def ping_scan_network (pingO : String → Nat → Bool × Option ℚ)
    (cfg : PingCfg) (c : Nat × Nat) : List String × List Effect :=
  let hosts := (expand_network c.1 c.2).map ipStr
  let alive := hosts.filter
    (fun ip => (ping_worker ip (pingO ip) cfg).1.isSome)
  let probeEvs := hosts.flatMap (fun ip =>
    List.replicate (attemptCount (ping_worker ip (pingO ip) cfg).2)
      (Effect.probe ip))
  let logEvs :=
    Effect.netLog (cidrStr c) ("===== PING SCAN " ++ cidrStr c ++ " =====")
      :: alive.map (fun ip => Effect.netLog (cidrStr c) ("PING " ++ ip))
      ++ [Effect.netLog (cidrStr c) ("===== END PING " ++ cidrStr c ++ " =====")]
  (alive, probeEvs ++ logEvs)

/-- The scan configuration consumed by `main` (lines 180-198). -/
structure Config where
  networks : List (Nat × Nat)
  ping : PingCfg
  tcp : TcpCfg
  max_hosts : Nat
  estimate_time : Bool

/-- `main` (`net_probe.py` lines 179-230): build the port list, run the
precheck, then the ping phase, the optional TCP phase, and the summary
block.  Returns the effect trace together with the raised error, if
any; a raised error ends the run with the effects emitted so far. -/
def mainRun (cfg : Config) (pingO : String → Nat → Bool × Option ℚ)
    (tcpO : String → Nat → Nat → Bool × Option ℚ) :
    List Effect × Option String :=
  match build_port_list cfg.tcp with
  | .error e => ([], some e)
  | .ok (ports, tcpCfg) =>
      match precheck_networks cfg.networks cfg.max_hosts with
      | .error e => ([], some e)
      | .ok _ =>
          let scans := cfg.networks.map (ping_scan_network pingO cfg.ping)
          let alive := scans.flatMap (·.1)
          let pingEvs := scans.flatMap (·.2)
          let tcpRes :=
            if tcpCfg.enable then tcpScan tcpO tcpCfg ports alive initStats
            else { stats := initStats, prints := [], attempts := 0 }
          let tcpEvs := tcpRes.prints.map
            (fun pr => Effect.probe (pr.1 ++ ":" ++ toString pr.2.1))
          (pingEvs ++ tcpEvs
            ++ summaryEffects alive.length ports tcpRes.stats, none)

/-! ## Pool result collection (`ping_scan_network` lines 115-123)

The `for fu in as_completed(futures)` loop, taken over the futures in
completion order.  Each future holds either `ping_worker`'s return
value, or — since `ping_worker` wraps nothing in `try`/`except` — the
exception the worker raised, which `fu.result()` re-raises into the
loop. -/

/-- The result-collection loop: accumulate the alive ips of the
successful workers; the first future holding an exception re-raises it
and the loop ends there. -/
def collectPing :
    List (Except String (Option (String × Option ℚ))) →
      Except String (List String)
  | [] => .ok []
  | fu :: rest =>
      match fu with
      | .error e => .error e
      | .ok none => collectPing rest
      | .ok (some (ip, _)) =>
          (collectPing rest).map (fun alive => ip :: alive)

/-! ## Continuous monitors (`ping_monitor.py`, `tcping_monitor.py`)

Both run an infinite loop bumping `total_count` and then exactly one of
`success_count` / `fail_count`, until a `KeyboardInterrupt` or an
unexpected exception ends it; the `finally` block then writes the
summary (TOTAL / SUCCESS / FAIL / AVG / MIN / MAX RTT) and `main`
returns normally.  One loop iteration's interaction with the outside is
reduced to its observables: for `ping_monitor`, whether a timed-out
line was seen (line 115) and the last parsed RTT (lines 119-121); for
`tcping_monitor`, the result of `tcp_connect_test` (line 106). -/

/-- The running statistics of a monitor (`total_count`,
`success_count`, `fail_count`, `cost_list`). -/
structure MonState where
  total_count : Nat
  success_count : Nat
  fail_count : Nat
  cost_list : List ℚ
deriving DecidableEq

/-- Initial statistics (lines 74-77 / 87-90). -/
def monInit : MonState := ⟨0, 0, 0, []⟩

/-- One iteration of `ping_monitor.py`'s loop (lines 91-138): bump
`total_count`, record the parsed RTT if any, and classify
(`if failed or rtt is None`, line 126). -/
def pingMonIter (st : MonState) (failed : Bool) (rtt : Option ℚ) :
    MonState :=
  let st1 := { st with total_count := st.total_count + 1 }
  let st2 := match rtt with
    | some r => { st1 with cost_list := st1.cost_list ++ [r] }
    | none => st1
  if failed || rtt.isNone then
    { st2 with fail_count := st2.fail_count + 1 }
  else
    { st2 with success_count := st2.success_count + 1 }

/-- `n` completed iterations of `ping_monitor.py`'s loop; the oracle
gives iteration `i`'s observables. -/
def pingMonLoop (oracle : Nat → Bool × Option ℚ) : Nat → MonState
  | 0 => monInit
  | n + 1 => pingMonIter (pingMonLoop oracle n) (oracle n).1 (oracle n).2

/-- One iteration of `tcping_monitor.py`'s loop (lines 104-120): bump
`total_count`; on success bump `success_count` and record the cost,
otherwise bump `fail_count`. -/
def tcpMonIter (st : MonState) (ok : Bool) (cost : ℚ) : MonState :=
  let st1 := { st with total_count := st.total_count + 1 }
  if ok then
    { st1 with success_count := st1.success_count + 1,
               cost_list := st1.cost_list ++ [cost] }
  else
    { st1 with fail_count := st1.fail_count + 1 }

/-- `n` completed iterations of `tcping_monitor.py`'s loop. -/
def tcpMonLoop (oracle : Nat → Bool × ℚ) : Nat → MonState
  | 0 => monInit
  | n + 1 => tcpMonIter (tcpMonLoop oracle n) (oracle n).1 (oracle n).2

/-- Why the monitoring loop stopped: operator interrupt
(`KeyboardInterrupt`, caught at line 140 / 122) or an unexpected
exception (caught at line 143 / 125). -/
inductive ExitReason where
  | interrupted : ExitReason
  | errored (e : String) : ExitReason
deriving DecidableEq

/-- A line written to the monitor's log after the loop stops. -/
inductive MonLine where
  | errorLine (e : String) : MonLine
  | summary (total success fail : Nat) (avg mn mx : ℚ) : MonLine
deriving DecidableEq

/-- `sum(cost_list) / len(cost_list) if cost_list else 0`
(line 148 / 130). -/
def avgCost (l : List ℚ) : ℚ :=
  if l ≠ [] then l.sum / (l.length : ℚ) else 0

/-- `min(cost_list) if cost_list else 0` (line 149 / 131). -/
def minCost : List ℚ → ℚ
  | [] => 0
  | x :: xs => xs.foldl min x

/-- `max(cost_list) if cost_list else 0` (line 150 / 132). -/
def maxCost : List ℚ → ℚ
  | [] => 0
  | x :: xs => xs.foldl max x

/-- The summary block of the `finally` clause (lines 152-160 of
`ping_monitor.py`, 134-142 of `tcping_monitor.py`). -/
def monSummary (st : MonState) : MonLine :=
  .summary st.total_count st.success_count st.fail_count
    (avgCost st.cost_list) (minCost st.cost_list) (maxCost st.cost_list)

/-- The tail of `ping_monitor.main` after `n` completed loop
iterations end for `reason`: the log lines written on the way out, and
whether `main` returns normally (exit code 0).  The `except Exception`
arm first appends its `[ERROR]` line (line 145); the `finally` block
then writes the summary in every case. -/
def pingMonitorExit (oracle : Nat → Bool × Option ℚ) (n : Nat)
    (reason : ExitReason) : List MonLine × Bool :=
  let st := pingMonLoop oracle n
  match reason with
  | .interrupted => ([monSummary st], true)
  | .errored e => ([.errorLine e, monSummary st], true)

/-- The tail of `tcping_monitor.main`, same shape (lines 122-144). -/
def tcpMonitorExit (oracle : Nat → Bool × ℚ) (n : Nat)
    (reason : ExitReason) : List MonLine × Bool :=
  let st := tcpMonLoop oracle n
  match reason with
  | .interrupted => ([monSummary st], true)
  | .errored e => ([.errorLine e, monSummary st], true)

/-! ## Sample inputs used by the witnesses -/

/-- A sample ping configuration: timeout 1s, retry 2, rate limit 0.5s,
4 threads. -/
def pingCfgEx : PingCfg := ⟨1, 2, 1 / 2, 4⟩

/-- A sample TCP configuration in `list` mode with port 80, retry 1. -/
def tcpCfgEx : TcpCfg := ⟨true, "list", [80], 0, 0, 3, 1, 1 / 2⟩

/-- A sample TCP configuration in `full` mode with rate limit 0.05s. -/
def tcpCfgFull : TcpCfg := ⟨true, "full", [], 0, 0, 3, 2, 1 / 20⟩

/-- A probe oracle whose first attempt fails and second succeeds. -/
def oracleFailThenOk : Nat → Bool × Option ℚ :=
  fun i => (i == 1, if i == 1 then some 5 else none)

/-! ## Lemmas about the address enumerator -/

lemma hostsOf_length (addr p : Nat) (hp : p ≤ 30) :
    (hostsOf addr p).length = blockSize p - 2 := by
  unfold hostsOf
  have : ¬ 31 ≤ p := by omega
  simp [this]

lemma mem_hostsOf (addr p : Nat) (hp : p ≤ 30) (a : Nat) :
    a ∈ hostsOf addr p ↔
      networkAddr addr p < a ∧ a < broadcastAddr addr p := by
  have h31 : ¬ 31 ≤ p := by omega
  have hbs : 2 ≤ blockSize p := by
    have : 2 ^ 1 ≤ 2 ^ (32 - p) := Nat.pow_le_pow_right (by norm_num) (by omega)
    simpa [blockSize] using this
  unfold hostsOf broadcastAddr
  simp only [h31, if_false, List.mem_map, List.mem_range]
  constructor
  · rintro ⟨i, hi, rfl⟩
    omega
  · rintro ⟨h1, h2⟩
    exact ⟨a - networkAddr addr p - 1, by omega, by omega⟩

lemma hostsOf_pairwise (addr p : Nat) :
    (hostsOf addr p).Pairwise (· < ·) := by
  unfold hostsOf
  by_cases h : 31 ≤ p <;>
    simp only [h, if_true, if_false] <;>
    exact List.pairwise_lt_range _ |>.map _ (by omega)

/-! ## Lemmas about the retrying prober -/

lemma pacedTrace_wellPaced (oracle : Nat → Bool × Option ℚ) (rate : ℚ) :
    ∀ k i, wellPaced rate (pacedTrace oracle rate i k) = true := by
  intro k
  induction k with
  | zero => intro i; rfl
  | succ k ih => intro i; simp [pacedTrace, wellPaced, ih]

lemma pacedTrace_attemptCount (oracle : Nat → Bool × Option ℚ) (rate : ℚ) :
    ∀ k i, attemptCount (pacedTrace oracle rate i k) = k := by
  intro k
  induction k with
  | zero => intro i; rfl
  | succ k ih =>
      intro i
      have h := ih (i + 1)
      simp [pacedTrace, attemptCount, List.countP_cons, isAttempt] at h ⊢
      omega

lemma attemptsUsedGo_succ_pos (oracle : Nat → Bool × Option ℚ)
    (fuel : Nat) {i : Nat} (h : (oracle i).1 = true) :
    attemptsUsedGo oracle i (fuel + 1) = 1 := by
  simp only [attemptsUsedGo]
  rw [h]
  simp

lemma attemptsUsedGo_succ_neg (oracle : Nat → Bool × Option ℚ)
    (fuel : Nat) {i : Nat} (h : (oracle i).1 = false) :
    attemptsUsedGo oracle i (fuel + 1)
      = attemptsUsedGo oracle (i + 1) fuel + 1 := by
  simp only [attemptsUsedGo]
  rw [h]
  simp

lemma ping_worker_go_succ_pos (ip : String)
    (oracle : Nat → Bool × Option ℚ) (rate : ℚ) (fuel : Nat) {i : Nat}
    (h : (oracle i).1 = true) :
    ping_worker_go ip oracle rate i (fuel + 1)
      = (some (ip, (oracle i).2),
          [PEvent.attempt true, PEvent.sleep rate]) := by
  simp only [ping_worker_go]
  rw [h]
  simp

lemma ping_worker_go_succ_neg (ip : String)
    (oracle : Nat → Bool × Option ℚ) (rate : ℚ) (fuel : Nat) {i : Nat}
    (h : (oracle i).1 = false) :
    ping_worker_go ip oracle rate i (fuel + 1)
      = ((ping_worker_go ip oracle rate (i + 1) fuel).1,
          PEvent.attempt false :: PEvent.sleep rate ::
            (ping_worker_go ip oracle rate (i + 1) fuel).2) := by
  simp only [ping_worker_go]
  rw [h]
  simp

lemma tcp_with_retry_go_succ_pos (oracle : Nat → Bool × Option ℚ)
    (rate : ℚ) (fuel : Nat) {i : Nat} (h : (oracle i).1 = true) :
    tcp_with_retry_go oracle rate i (fuel + 1)
      = ((true, (oracle i).2),
          [PEvent.attempt true, PEvent.sleep rate]) := by
  simp only [tcp_with_retry_go]
  rw [h]
  simp

lemma tcp_with_retry_go_succ_neg (oracle : Nat → Bool × Option ℚ)
    (rate : ℚ) (fuel : Nat) {i : Nat} (h : (oracle i).1 = false) :
    tcp_with_retry_go oracle rate i (fuel + 1)
      = ((tcp_with_retry_go oracle rate (i + 1) fuel).1,
          PEvent.attempt false :: PEvent.sleep rate ::
            (tcp_with_retry_go oracle rate (i + 1) fuel).2) := by
  simp only [tcp_with_retry_go]
  rw [h]
  simp

lemma attemptsUsedGo_le (oracle : Nat → Bool × Option ℚ) :
    ∀ fuel i, attemptsUsedGo oracle i fuel ≤ fuel := by
  intro fuel
  induction fuel with
  | zero => intro i; simp [attemptsUsedGo]
  | succ fuel ih =>
      intro i
      by_cases hs : (oracle i).1
      · rw [attemptsUsedGo_succ_pos oracle fuel hs]; omega
      · simp only [Bool.not_eq_true] at hs
        rw [attemptsUsedGo_succ_neg oracle fuel hs]
        have := ih (i + 1); omega

lemma attemptsUsedGo_pos (oracle : Nat → Bool × Option ℚ) (fuel i : Nat) :
    0 < attemptsUsedGo oracle i (fuel + 1) := by
  by_cases hs : (oracle i).1
  · rw [attemptsUsedGo_succ_pos oracle fuel hs]; omega
  · simp only [Bool.not_eq_true] at hs
    rw [attemptsUsedGo_succ_neg oracle fuel hs]; omega

/-- Every attempt strictly before the last issued one failed. -/
lemma attemptsUsedGo_first_success (oracle : Nat → Bool × Option ℚ) :
    ∀ fuel i j, j + 1 < attemptsUsedGo oracle i fuel →
      (oracle (i + j)).1 = false := by
  intro fuel
  induction fuel with
  | zero => intro i j h; simp [attemptsUsedGo] at h
  | succ fuel ih =>
      intro i j h
      by_cases hs : (oracle i).1
      · rw [attemptsUsedGo_succ_pos oracle fuel hs] at h; omega
      · simp only [Bool.not_eq_true] at hs
        rw [attemptsUsedGo_succ_neg oracle fuel hs] at h
        match j with
        | 0 => simpa using hs
        | j + 1 =>
            have hr := ih (i + 1) j (by omega)
            have heq : i + (j + 1) = i + 1 + j := by omega
            rw [heq]; exact hr

/-- The loop ends on a success or by exhausting the fuel. -/
lemma attemptsUsedGo_last (oracle : Nat → Bool × Option ℚ) :
    ∀ fuel i, (oracle (i + (attemptsUsedGo oracle i fuel - 1))).1 = true ∨
      attemptsUsedGo oracle i fuel = fuel := by
  intro fuel
  induction fuel with
  | zero => intro i; right; rfl
  | succ fuel ih =>
      intro i
      by_cases hs : (oracle i).1
      · rw [attemptsUsedGo_succ_pos oracle fuel hs]; left; simpa using hs
      · simp only [Bool.not_eq_true] at hs
        rw [attemptsUsedGo_succ_neg oracle fuel hs]
        cases fuel with
        | zero => right; rfl
        | succ fuel =>
            rcases ih (i + 1) with h | h
            · left
              have h1 : 0 < attemptsUsedGo oracle (i + 1) (fuel + 1) :=
                attemptsUsedGo_pos oracle fuel (i + 1)
              have heq : i + (attemptsUsedGo oracle (i + 1) (fuel + 1) + 1 - 1)
                  = i + 1 + (attemptsUsedGo oracle (i + 1) (fuel + 1) - 1) := by
                omega
              rw [heq]; exact h
            · right; omega

lemma ping_worker_go_events (ip : String) (oracle : Nat → Bool × Option ℚ)
    (rate : ℚ) :
    ∀ fuel i, (ping_worker_go ip oracle rate i fuel).2
      = pacedTrace oracle rate i (attemptsUsedGo oracle i fuel) := by
  intro fuel
  induction fuel with
  | zero => intro i; rfl
  | succ fuel ih =>
      intro i
      by_cases hs : (oracle i).1
      · rw [ping_worker_go_succ_pos ip oracle rate fuel hs,
            attemptsUsedGo_succ_pos oracle fuel hs]
        simp [pacedTrace, hs]
      · simp only [Bool.not_eq_true] at hs
        rw [ping_worker_go_succ_neg ip oracle rate fuel hs,
            attemptsUsedGo_succ_neg oracle fuel hs]
        simp [pacedTrace, hs, ih (i + 1)]

lemma tcp_with_retry_go_events (oracle : Nat → Bool × Option ℚ)
    (rate : ℚ) :
    ∀ fuel i, (tcp_with_retry_go oracle rate i fuel).2
      = pacedTrace oracle rate i (attemptsUsedGo oracle i fuel) := by
  intro fuel
  induction fuel with
  | zero => intro i; rfl
  | succ fuel ih =>
      intro i
      by_cases hs : (oracle i).1
      · rw [tcp_with_retry_go_succ_pos oracle rate fuel hs,
            attemptsUsedGo_succ_pos oracle fuel hs]
        simp [pacedTrace, hs]
      · simp only [Bool.not_eq_true] at hs
        rw [tcp_with_retry_go_succ_neg oracle rate fuel hs,
            attemptsUsedGo_succ_neg oracle fuel hs]
        simp [pacedTrace, hs, ih (i + 1)]

/-- The ping worker reports success exactly when its last issued
attempt succeeded. -/
lemma ping_worker_go_result (ip : String) (oracle : Nat → Bool × Option ℚ)
    (rate : ℚ) :
    ∀ fuel i, (ping_worker_go ip oracle rate i fuel).1.isSome
      = (fuel ≠ 0 && (oracle (i + (attemptsUsedGo oracle i fuel - 1))).1) := by
  intro fuel
  induction fuel with
  | zero => intro i; rfl
  | succ fuel ih =>
      intro i
      by_cases hs : (oracle i).1
      · rw [ping_worker_go_succ_pos ip oracle rate fuel hs,
            attemptsUsedGo_succ_pos oracle fuel hs]
        simp [hs]
      · simp only [Bool.not_eq_true] at hs
        rw [ping_worker_go_succ_neg ip oracle rate fuel hs,
            attemptsUsedGo_succ_neg oracle fuel hs]
        cases fuel with
        | zero => simp [ping_worker_go, attemptsUsedGo, hs]
        | succ fuel =>
            have h1 : 0 < attemptsUsedGo oracle (i + 1) (fuel + 1) :=
              attemptsUsedGo_pos oracle fuel (i + 1)
            have heq : i + (attemptsUsedGo oracle (i + 1) (fuel + 1) + 1 - 1)
                = i + 1 + (attemptsUsedGo oracle (i + 1) (fuel + 1) - 1) := by
              omega
            rw [heq, ih (i + 1)]
            simp

/-- `tcp_with_retry` reports success exactly when its last issued
attempt succeeded. -/
lemma tcp_with_retry_go_result (oracle : Nat → Bool × Option ℚ)
    (rate : ℚ) :
    ∀ fuel i, (tcp_with_retry_go oracle rate i fuel).1.1
      = (fuel ≠ 0 && (oracle (i + (attemptsUsedGo oracle i fuel - 1))).1) := by
  intro fuel
  induction fuel with
  | zero => intro i; rfl
  | succ fuel ih =>
      intro i
      by_cases hs : (oracle i).1
      · rw [tcp_with_retry_go_succ_pos oracle rate fuel hs,
            attemptsUsedGo_succ_pos oracle fuel hs]
        simp [hs]
      · simp only [Bool.not_eq_true] at hs
        rw [tcp_with_retry_go_succ_neg oracle rate fuel hs,
            attemptsUsedGo_succ_neg oracle fuel hs]
        cases fuel with
        | zero => simp [tcp_with_retry_go, attemptsUsedGo, hs]
        | succ fuel =>
            have h1 : 0 < attemptsUsedGo oracle (i + 1) (fuel + 1) :=
              attemptsUsedGo_pos oracle fuel (i + 1)
            have heq : i + (attemptsUsedGo oracle (i + 1) (fuel + 1) + 1 - 1)
                = i + 1 + (attemptsUsedGo oracle (i + 1) (fuel + 1) - 1) := by
              omega
            rw [heq, ih (i + 1)]
            simp

/-! ## Lemmas about the TCP phase counters -/

lemma tcpProbeStep_total (oracle : String → Nat → Nat → Bool × Option ℚ)
    (cfg : TcpCfg) (ip : String) (port : Nat) (stats : Nat → Stats)
    (q : Nat) :
    ((tcpProbeStep oracle cfg ip port stats).stats q).total
      = (stats q).total + (if q = port then 1 else 0) := by
  by_cases h : (tcp_with_retry (oracle ip port) cfg).1.1 <;>
    by_cases hq : q = port <;>
      simp [tcpProbeStep, h, hq]

lemma tcpProbeStep_success (oracle : String → Nat → Nat → Bool × Option ℚ)
    (cfg : TcpCfg) (ip : String) (port : Nat) (stats : Nat → Stats)
    (q : Nat) :
    ((tcpProbeStep oracle cfg ip port stats).stats q).success
      = (stats q).success
        + (if q = port ∧ (tcp_with_retry (oracle ip port) cfg).1.1 = true
           then 1 else 0) := by
  by_cases h : (tcp_with_retry (oracle ip port) cfg).1.1 <;>
    by_cases hq : q = port <;>
      simp [tcpProbeStep, h, hq]

lemma tcpProbeStep_stats_ne (oracle : String → Nat → Nat → Bool × Option ℚ)
    (cfg : TcpCfg) (ip : String) (port : Nat) (stats : Nat → Stats)
    {q : Nat} (hq : q ≠ port) :
    (tcpProbeStep oracle cfg ip port stats).stats q = stats q := by
  by_cases h : (tcp_with_retry (oracle ip port) cfg).1.1 <;>
    simp [tcpProbeStep, h, hq]

lemma tcpScanHost_total (oracle : String → Nat → Nat → Bool × Option ℚ)
    (cfg : TcpCfg) (ip : String) (q : Nat) :
    ∀ ports stats, ((tcpScanHost oracle cfg ip ports stats).stats q).total
      = (stats q).total + ports.count q := by
  intro ports
  induction ports with
  | nil => intro stats; simp [tcpScanHost]
  | cons port ports ih =>
      intro stats
      have h := tcpProbeStep_total oracle cfg ip port stats q
      simp only [tcpScanHost, ih, h, List.count_cons]
      by_cases hq : q = port <;> simp [hq] <;> omega

lemma tcpScan_total (oracle : String → Nat → Nat → Bool × Option ℚ)
    (cfg : TcpCfg) (ports : List Nat) (q : Nat) :
    ∀ ips stats, ((tcpScan oracle cfg ports ips stats).stats q).total
      = (stats q).total + ips.length * ports.count q := by
  intro ips
  induction ips with
  | nil => intro stats; simp [tcpScan]
  | cons ip ips ih =>
      intro stats
      simp only [tcpScan, ih, tcpScanHost_total, List.length_cons]
      ring

/-- The per-port invariant `success ≤ total` is preserved by one
probe step. -/
lemma tcpProbeStep_inv (oracle : String → Nat → Nat → Bool × Option ℚ)
    (cfg : TcpCfg) (ip : String) (port : Nat) (stats : Nat → Stats)
    (h : ∀ q, (stats q).success ≤ (stats q).total) (q : Nat) :
    (((tcpProbeStep oracle cfg ip port stats).stats q).success
      ≤ ((tcpProbeStep oracle cfg ip port stats).stats q).total) := by
  by_cases hq : q = port
  · subst hq
    have hh := h q
    by_cases hok : (tcp_with_retry (oracle ip q) cfg).1.1 = true <;>
      simp [tcpProbeStep, hok] <;> omega
  · rw [tcpProbeStep_stats_ne oracle cfg ip port stats hq]
    exact h q

lemma tcpScanHost_inv (oracle : String → Nat → Nat → Bool × Option ℚ)
    (cfg : TcpCfg) (ip : String) :
    ∀ ports stats, (∀ q, (stats q).success ≤ (stats q).total) →
      ∀ q, ((tcpScanHost oracle cfg ip ports stats).stats q).success
        ≤ ((tcpScanHost oracle cfg ip ports stats).stats q).total := by
  intro ports
  induction ports with
  | nil => intro stats h q; simpa [tcpScanHost] using h q
  | cons port ports ih =>
      intro stats h q
      simp only [tcpScanHost]
      exact ih _ (tcpProbeStep_inv oracle cfg ip port stats h) q

lemma tcpScan_inv (oracle : String → Nat → Nat → Bool × Option ℚ)
    (cfg : TcpCfg) (ports : List Nat) :
    ∀ ips stats, (∀ q, (stats q).success ≤ (stats q).total) →
      ∀ q, ((tcpScan oracle cfg ports ips stats).stats q).success
        ≤ ((tcpScan oracle cfg ports ips stats).stats q).total := by
  intro ips
  induction ips with
  | nil => intro stats h q; simpa [tcpScan] using h q
  | cons ip ips ih =>
      intro stats h q
      simp only [tcpScan]
      exact ih _ (tcpScanHost_inv oracle cfg ip ports stats h) q

lemma tcpScanHost_stats_notmem
    (oracle : String → Nat → Nat → Bool × Option ℚ)
    (cfg : TcpCfg) (ip : String) {q : Nat} :
    ∀ ports stats, q ∉ ports →
      (tcpScanHost oracle cfg ip ports stats).stats q = stats q := by
  intro ports
  induction ports with
  | nil => intro stats _; rfl
  | cons port ports ih =>
      intro stats hq
      simp only [List.mem_cons, not_or] at hq
      simp only [tcpScanHost, ih _ hq.2,
        tcpProbeStep_stats_ne oracle cfg ip port stats hq.1]

/-- With a duplicate-free port list, one host's inner loop bumps the
success counter of port `q` exactly when that host's retry wrapper
succeeded on `q`. -/
lemma tcpScanHost_success_nodup
    (oracle : String → Nat → Nat → Bool × Option ℚ)
    (cfg : TcpCfg) (ip : String) {q : Nat} :
    ∀ ports stats, ports.Nodup → q ∈ ports →
      ((tcpScanHost oracle cfg ip ports stats).stats q).success
        = (stats q).success
          + (if (tcp_with_retry (oracle ip q) cfg).1.1 = true then 1 else 0) := by
  intro ports
  induction ports with
  | nil => intro stats _ hq; simp at hq
  | cons port ports ih =>
      intro stats hnd hq
      rcases List.mem_cons.mp hq with rfl | hq'
      · have hnot : q ∉ ports := (List.nodup_cons.mp hnd).1
        simp only [tcpScanHost,
          tcpScanHost_stats_notmem oracle cfg ip ports _ hnot,
          tcpProbeStep_success oracle cfg ip q stats q]
        simp
      · by_cases hpq : q = port
        · subst hpq
          exact absurd hq' (List.nodup_cons.mp hnd).1
        · simp only [tcpScanHost]
          rw [ih _ (List.nodup_cons.mp hnd).2 hq',
            tcpProbeStep_stats_ne oracle cfg ip port stats hpq]

lemma tcpScan_success_nodup
    (oracle : String → Nat → Nat → Bool × Option ℚ)
    (cfg : TcpCfg) (ports : List Nat) {q : Nat}
    (hnd : ports.Nodup) (hq : q ∈ ports) :
    ∀ ips stats, ((tcpScan oracle cfg ports ips stats).stats q).success
      = (stats q).success
        + ips.countP (fun ip => (tcp_with_retry (oracle ip q) cfg).1.1) := by
  intro ips
  induction ips with
  | nil => intro stats; simp [tcpScan]
  | cons ip ips ih =>
      intro stats
      simp only [tcpScan, ih, List.countP_cons,
        tcpScanHost_success_nodup oracle cfg ip ports stats hnd hq]
      by_cases hok : (tcp_with_retry (oracle ip q) cfg).1.1 = true
      · simp [hok]
        omega
      · simp [hok]

/-- One host's success prints: one line per port whose retry wrapper
succeeded, in port order, independent of the incoming counters. -/
lemma tcpScanHost_prints (oracle : String → Nat → Nat → Bool × Option ℚ)
    (cfg : TcpCfg) (ip : String) :
    ∀ ports stats, (tcpScanHost oracle cfg ip ports stats).prints
      = ports.filterMap (fun port =>
          if (tcp_with_retry (oracle ip port) cfg).1.1
          then some (ip, port, (tcp_with_retry (oracle ip port) cfg).1.2)
          else none) := by
  intro ports
  induction ports with
  | nil => intro stats; rfl
  | cons port ports ih =>
      intro stats
      by_cases hok : (tcp_with_retry (oracle ip port) cfg).1.1 = true <;>
        simp [tcpScanHost, tcpProbeStep, hok, ih]

/-- The whole phase's success prints, host-major, in iteration order. -/
lemma tcpScan_prints (oracle : String → Nat → Nat → Bool × Option ℚ)
    (cfg : TcpCfg) (ports : List Nat) :
    ∀ ips stats, (tcpScan oracle cfg ports ips stats).prints
      = ips.flatMap (fun ip => ports.filterMap (fun port =>
          if (tcp_with_retry (oracle ip port) cfg).1.1
          then some (ip, port, (tcp_with_retry (oracle ip port) cfg).1.2)
          else none)) := by
  intro ips
  induction ips with
  | nil => intro stats; rfl
  | cons ip ips ih =>
      intro stats
      simp [tcpScan, ih, tcpScanHost_prints]

/-! ## Lemmas about the precheck and the collection loop -/

/-- If some configured network exceeds the ceiling, the precheck loop
stops at the first such network with its rejection message. -/
lemma precheckGo_error_of_mem (maxHosts : Nat) :
    ∀ (networks : List (Nat × Nat)) (total : Nat) (c : Nat × Nat),
      c ∈ networks → maxHosts < (hostsOf c.1 c.2).length →
      ∃ c', c' ∈ networks ∧ maxHosts < (hostsOf c'.1 c'.2).length ∧
        precheckGo maxHosts networks total
          = .error (precheckMsg c' (hostsOf c'.1 c'.2).length maxHosts) := by
  intro networks
  induction networks with
  | nil => intro total c hc; simp at hc
  | cons n rest ih =>
      intro total c hc hcount
      by_cases hn : maxHosts < (hostsOf n.1 n.2).length
      · exact ⟨n, List.mem_cons_self n rest, hn, by simp [precheckGo, hn]⟩
      · rcases List.mem_cons.mp hc with rfl | hc'
        · exact absurd hcount hn
        · obtain ⟨c', hc'', hcount'', herr⟩ :=
            ih (total + (hostsOf n.1 n.2).length) c hc' hcount
          exact ⟨c', List.mem_cons_of_mem n hc'', hcount'',
            by simp [precheckGo, hn]; exact herr⟩

/-- An exception-free prefix of the futures list is traversed without
aborting; the first raising future re-raises and ends the loop. -/
lemma collectPing_append_error (e : String) :
    ∀ (pre post : List (Except String (Option (String × Option ℚ)))),
      (∀ x ∈ pre, ∃ r, x = .ok r) →
      collectPing (pre ++ .error e :: post) = .error e := by
  intro pre
  induction pre with
  | nil => intro post _; rfl
  | cons fu pre ih =>
      intro post h
      obtain ⟨r, rfl⟩ := h fu (List.mem_cons_self fu pre)
      have hrest := ih post (fun x hx => h x (List.mem_cons_of_mem _ hx))
      match r with
      | none => simpa [collectPing] using hrest
      | some (ip, c) => simp [collectPing, hrest, Except.map]

/-- With no raising future, the loop reports exactly the successful
workers' ips, in completion order. -/
lemma collectPing_ok :
    ∀ (futures : List (Except String (Option (String × Option ℚ)))),
      (∀ x ∈ futures, ∃ r, x = .ok r) →
      collectPing futures = .ok (futures.filterMap (fun fu =>
        match fu with
        | .ok (some (ip, _)) => some ip
        | _ => none)) := by
  intro futures
  induction futures with
  | nil => intro _; rfl
  | cons fu rest ih =>
      intro h
      obtain ⟨r, rfl⟩ := h fu (List.mem_cons_self fu rest)
      have hrest := ih (fun x hx => h x (List.mem_cons_of_mem _ hx))
      match r with
      | none => simpa [collectPing] using hrest
      | some (ip, c) => simp [collectPing, hrest, Except.map]

/-- Counter bookkeeping of one `ping_monitor` iteration. -/
lemma pingMonIter_counts (st : MonState) (failed : Bool) (rtt : Option ℚ) :
    (pingMonIter st failed rtt).total_count = st.total_count + 1
    ∧ (pingMonIter st failed rtt).success_count
        + (pingMonIter st failed rtt).fail_count
      = st.success_count + st.fail_count + 1 := by
  unfold pingMonIter
  rcases rtt with _ | r <;> by_cases hf : failed <;> simp [hf] <;> omega

/-- Counter bookkeeping of one `tcping_monitor` iteration. -/
lemma tcpMonIter_counts (st : MonState) (ok : Bool) (cost : ℚ) :
    (tcpMonIter st ok cost).total_count = st.total_count + 1
    ∧ (tcpMonIter st ok cost).success_count
        + (tcpMonIter st ok cost).fail_count
      = st.success_count + st.fail_count + 1 := by
  unfold tcpMonIter
  by_cases hok : ok <;> simp [hok] <;> omega

lemma pingMonLoop_counts (oracle : Nat → Bool × Option ℚ) :
    ∀ n, (pingMonLoop oracle n).total_count = n
      ∧ (pingMonLoop oracle n).success_count
          + (pingMonLoop oracle n).fail_count = n := by
  intro n
  induction n with
  | zero => exact ⟨rfl, rfl⟩
  | succ n ih =>
      have h := pingMonIter_counts (pingMonLoop oracle n)
        (oracle n).1 (oracle n).2
      exact ⟨by simp [pingMonLoop, h.1, ih.1],
             by simp [pingMonLoop]; omega⟩

lemma tcpMonLoop_counts (oracle : Nat → Bool × ℚ) :
    ∀ n, (tcpMonLoop oracle n).total_count = n
      ∧ (tcpMonLoop oracle n).success_count
          + (tcpMonLoop oracle n).fail_count = n := by
  intro n
  induction n with
  | zero => exact ⟨rfl, rfl⟩
  | succ n ih =>
      have h := tcpMonIter_counts (tcpMonLoop oracle n)
        (oracle n).1 (oracle n).2
      exact ⟨by simp [tcpMonLoop, h.1, ih.1],
             by simp [tcpMonLoop]; omega⟩

/-- When the port list builds and the precheck passes, `main` runs to
completion: its trace is the ping-phase effects, then the TCP-phase
probes, then the summary block, with no error raised. -/
lemma mainRun_ok_eq (cfg : Config)
    (pingO : String → Nat → Bool × Option ℚ)
    (tcpO : String → Nat → Nat → Bool × Option ℚ)
    (ports : List Nat) (tcpCfg : TcpCfg) (n : Nat)
    (hb : build_port_list cfg.tcp = Except.ok (ports, tcpCfg))
    (hp : precheck_networks cfg.networks cfg.max_hosts = Except.ok n) :
    mainRun cfg pingO tcpO
      = ((cfg.networks.map (ping_scan_network pingO cfg.ping)).flatMap (·.2)
          ++ (if tcpCfg.enable then
                tcpScan tcpO tcpCfg ports
                  ((cfg.networks.map
                    (ping_scan_network pingO cfg.ping)).flatMap (·.1))
                  initStats
              else
                { stats := initStats, prints := [],
                  attempts := 0 }).prints.map
              (fun pr => Effect.probe (pr.1 ++ ":" ++ toString pr.2.1))
          ++ summaryEffects
              ((cfg.networks.map
                (ping_scan_network pingO cfg.ping)).flatMap (·.1)).length
              ports
              (if tcpCfg.enable then
                tcpScan tcpO tcpCfg ports
                  ((cfg.networks.map
                    (ping_scan_network pingO cfg.ping)).flatMap (·.1))
                  initStats
              else
                { stats := initStats, prints := [],
                  attempts := 0 }).stats,
        none) := by
  simp only [mainRun, hb, hp]

/-! ## Claims -/

/-- C1: after a completed TCP phase over the alive-host list, every
configured port's counters satisfy `success ≤ total`, and `total`
equals the number of alive hosts — each port's total is bumped exactly
once per alive host (lines 211-219, counters initialised at
line 190). -/
theorem tcp_phase_total_eq_alive
    (oracle : String → Nat → Nat → Bool × Option ℚ) (cfg : TcpCfg)
    (aliveIps : List String) (ports : List Nat)
    (hnd : ports.Nodup) (p : Nat) (hp : p ∈ ports) :
    ((tcpScan oracle cfg ports aliveIps initStats).stats p).total
        = aliveIps.length
    ∧ ((tcpScan oracle cfg ports aliveIps initStats).stats p).success
        ≤ ((tcpScan oracle cfg ports aliveIps initStats).stats p).total := by
  constructor
  · rw [tcpScan_total]
    simp [initStats, List.count_eq_one_of_mem hnd hp]
  · exact tcpScan_inv oracle cfg ports aliveIps initStats
      (fun q => le_refl 0) p

theorem tcp_phase_total_eq_alive_witness :
    ([(80 : Nat)].Nodup ∧ (80 : Nat) ∈ [(80 : Nat)])
    ∧ (((tcpScan (fun _ _ _ => (true, some 3)) tcpCfgEx [80]
          ["10.0.0.1", "10.0.0.2"] initStats).stats 80).total
        = ["10.0.0.1", "10.0.0.2"].length
      ∧ ((tcpScan (fun _ _ _ => (true, some 3)) tcpCfgEx [80]
          ["10.0.0.1", "10.0.0.2"] initStats).stats 80).success
        ≤ ((tcpScan (fun _ _ _ => (true, some 3)) tcpCfgEx [80]
          ["10.0.0.1", "10.0.0.2"] initStats).stats 80).total) :=
  ⟨⟨by decide, by decide⟩,
   tcp_phase_total_eq_alive (fun _ _ _ => (true, some 3)) tcpCfgEx
     ["10.0.0.1", "10.0.0.2"] [80] (by decide) 80 (by decide)⟩

/-- C2: both retrying probers (`ping_worker`, `tcp_with_retry`) issue
at most `retry + 1` attempts, fail on every attempt before the last
one issued (i.e. stop at the first success), end on a success or by
exhausting the budget, report success exactly when the last issued
attempt succeeded — and their trace is well paced: a sleep of exactly
`rate_limit` follows every attempt, failed, successful, or final. -/
theorem retrying_prober_paced (oracle : Nat → Bool × Option ℚ)
    (ip : String) (pcfg : PingCfg) (tcfg : TcpCfg) :
    (wellPaced pcfg.rate_limit (ping_worker ip oracle pcfg).2 = true
      ∧ attemptCount (ping_worker ip oracle pcfg).2 ≤ pcfg.retry + 1
      ∧ (∀ j, j + 1 < attemptCount (ping_worker ip oracle pcfg).2 →
          (oracle j).1 = false)
      ∧ ((oracle (attemptCount (ping_worker ip oracle pcfg).2 - 1)).1 = true
          ∨ attemptCount (ping_worker ip oracle pcfg).2 = pcfg.retry + 1)
      ∧ (ping_worker ip oracle pcfg).1.isSome
          = (oracle (attemptCount (ping_worker ip oracle pcfg).2 - 1)).1)
    ∧ (wellPaced tcfg.rate_limit (tcp_with_retry oracle tcfg).2 = true
      ∧ attemptCount (tcp_with_retry oracle tcfg).2 ≤ tcfg.retry + 1
      ∧ (∀ j, j + 1 < attemptCount (tcp_with_retry oracle tcfg).2 →
          (oracle j).1 = false)
      ∧ ((oracle (attemptCount (tcp_with_retry oracle tcfg).2 - 1)).1 = true
          ∨ attemptCount (tcp_with_retry oracle tcfg).2 = tcfg.retry + 1)
      ∧ (tcp_with_retry oracle tcfg).1.1
          = (oracle (attemptCount (tcp_with_retry oracle tcfg).2 - 1)).1) := by
  have hevP : (ping_worker ip oracle pcfg).2
      = pacedTrace oracle pcfg.rate_limit 0
          (attemptsUsedGo oracle 0 (pcfg.retry + 1)) :=
    ping_worker_go_events ip oracle pcfg.rate_limit (pcfg.retry + 1) 0
  have hcntP : attemptCount (ping_worker ip oracle pcfg).2
      = attemptsUsedGo oracle 0 (pcfg.retry + 1) := by
    rw [hevP, pacedTrace_attemptCount]
  have hevT : (tcp_with_retry oracle tcfg).2
      = pacedTrace oracle tcfg.rate_limit 0
          (attemptsUsedGo oracle 0 (tcfg.retry + 1)) :=
    tcp_with_retry_go_events oracle tcfg.rate_limit (tcfg.retry + 1) 0
  have hcntT : attemptCount (tcp_with_retry oracle tcfg).2
      = attemptsUsedGo oracle 0 (tcfg.retry + 1) := by
    rw [hevT, pacedTrace_attemptCount]
  refine ⟨⟨?_, ?_, ?_, ?_, ?_⟩, ⟨?_, ?_, ?_, ?_, ?_⟩⟩
  · rw [hevP]; exact pacedTrace_wellPaced oracle pcfg.rate_limit _ 0
  · rw [hcntP]; exact attemptsUsedGo_le oracle (pcfg.retry + 1) 0
  · intro j hj
    rw [hcntP] at hj
    simpa using attemptsUsedGo_first_success oracle (pcfg.retry + 1) 0 j hj
  · rw [hcntP]
    simpa using attemptsUsedGo_last oracle (pcfg.retry + 1) 0
  · rw [hcntP]
    have := ping_worker_go_result ip oracle pcfg.rate_limit (pcfg.retry + 1) 0
    simpa using this
  · rw [hevT]; exact pacedTrace_wellPaced oracle tcfg.rate_limit _ 0
  · rw [hcntT]; exact attemptsUsedGo_le oracle (tcfg.retry + 1) 0
  · intro j hj
    rw [hcntT] at hj
    simpa using attemptsUsedGo_first_success oracle (tcfg.retry + 1) 0 j hj
  · rw [hcntT]
    simpa using attemptsUsedGo_last oracle (tcfg.retry + 1) 0
  · rw [hcntT]
    have := tcp_with_retry_go_result oracle tcfg.rate_limit (tcfg.retry + 1) 0
    simpa using this

theorem retrying_prober_paced_witness :
    wellPaced pingCfgEx.rate_limit
        (ping_worker "10.0.0.7" oracleFailThenOk pingCfgEx).2 = true
    ∧ attemptCount (ping_worker "10.0.0.7" oracleFailThenOk pingCfgEx).2
        ≤ pingCfgEx.retry + 1 :=
  ⟨(retrying_prober_paced oracleFailThenOk "10.0.0.7" pingCfgEx tcpCfgEx).1.1,
   (retrying_prober_paced oracleFailThenOk "10.0.0.7" pingCfgEx
      tcpCfgEx).1.2.1⟩

/-- C3 counterexample: `ping_worker` wraps nothing in `try`/`except`,
so a probe task that raised aborts the collection loop of
`ping_scan_network` when `fu.result()` re-raises (line 119): with a
raising future followed by a successful one, the loop yields the
exception and the successful sibling is never reported. -/
theorem pool_exception_aborts :
    collectPing [Except.error "boom",
        Except.ok (some ("10.0.0.2", some 5))]
      = Except.error "boom"
    ∧ (collectPing [Except.error "boom",
        Except.ok (some ("10.0.0.2", some 5))]).toOption = none := by
  exact ⟨rfl, rfl⟩

/-- C3 (amended): an unexpected exception in a ping probe task is not
converted into a failed outcome — it re-raises out of the collection
loop, aborting the network's scan and discarding every result after it
in completion order; only an exception-free run reports all successful
targets. -/
theorem pool_exception_propagates
    (pre post futures : List (Except String (Option (String × Option ℚ))))
    (e : String)
    (hpre : ∀ x ∈ pre, ∃ r, x = Except.ok r)
    (hfut : ∀ x ∈ futures, ∃ r, x = Except.ok r) :
    collectPing (pre ++ Except.error e :: post) = Except.error e
    ∧ collectPing futures = Except.ok (futures.filterMap (fun fu =>
        match fu with
        | .ok (some (ip, _)) => some ip
        | _ => none)) :=
  ⟨collectPing_append_error e pre post hpre, collectPing_ok futures hfut⟩

theorem pool_exception_propagates_witness :
    collectPing ([Except.ok none] ++ Except.error "boom"
        :: [Except.ok (some ("10.0.0.2", some 5))]) = Except.error "boom"
    ∧ collectPing [Except.ok (some ("10.0.0.9", some 1)), Except.ok none]
        = Except.ok ([Except.ok (some ("10.0.0.9", some (1 : ℚ))),
            Except.ok none].filterMap
          (fun fu : Except String (Option (String × Option ℚ)) =>
          match fu with
          | .ok (some (ip, _)) => some ip
          | _ => none)) :=
  pool_exception_propagates [Except.ok none]
    [Except.ok (some ("10.0.0.2", some 5))]
    [Except.ok (some ("10.0.0.9", some 1)), Except.ok none] "boom"
    (by
      intro x hx
      rcases List.mem_singleton.mp hx with rfl
      exact ⟨none, rfl⟩)
    (by
      intro x hx
      rcases List.mem_cons.mp hx with rfl | hx'
      · exact ⟨some ("10.0.0.9", some 1), rfl⟩
      · rcases List.mem_singleton.mp hx' with rfl
        exact ⟨none, rfl⟩)

/-- C4: if any configured network's usable-host count exceeds
`max_hosts`, the run is rejected: `main` raises the `RuntimeError` of
lines 65-67 naming the (first) offending network, its host count and
the ceiling, and its effect trace is empty — no probe is issued and no
log write occurs. (The port-list mode must be recognised, otherwise
`build_port_list` raises first, at line 172.) -/
theorem precheck_rejects_run (cfg : Config)
    (pingO : String → Nat → Bool × Option ℚ)
    (tcpO : String → Nat → Nat → Bool × Option ℚ)
    (c : Nat × Nat) (hc : c ∈ cfg.networks)
    (hcount : cfg.max_hosts < (hostsOf c.1 c.2).length)
    (hmode : cfg.tcp.mode = "list" ∨ cfg.tcp.mode = "range"
      ∨ cfg.tcp.mode = "full") :
    (∃ c', c' ∈ cfg.networks
        ∧ cfg.max_hosts < (hostsOf c'.1 c'.2).length
        ∧ mainRun cfg pingO tcpO
            = ([], some (precheckMsg c' (hostsOf c'.1 c'.2).length
                cfg.max_hosts)))
    ∧ (mainRun cfg pingO tcpO).1.countP Effect.isProbe = 0
    ∧ (mainRun cfg pingO tcpO).1.countP Effect.isLogWrite = 0 := by
  obtain ⟨c', hc', hcount', herr⟩ :=
    precheckGo_error_of_mem cfg.max_hosts cfg.networks 0 c hc hcount
  have hm : mainRun cfg pingO tcpO
      = ([], some (precheckMsg c' (hostsOf c'.1 c'.2).length
          cfg.max_hosts)) := by
    rcases hmode with h | h | h <;>
      simp [mainRun, build_port_list, h, precheck_networks, herr]
  exact ⟨⟨c', hc', hcount', hm⟩, by simp [hm], by simp [hm]⟩

theorem precheck_rejects_run_witness :
    (((3232235776 : Nat), (30 : Nat))
        ∈ (⟨[(3232235776, 30)], pingCfgEx, tcpCfgEx, 1, true⟩
            : Config).networks
      ∧ (1 : Nat) < (hostsOf 3232235776 30).length)
    ∧ ((∃ c', c' ∈ (⟨[(3232235776, 30)], pingCfgEx, tcpCfgEx, 1, true⟩
            : Config).networks
        ∧ (1 : Nat) < (hostsOf c'.1 c'.2).length
        ∧ mainRun (⟨[(3232235776, 30)], pingCfgEx, tcpCfgEx, 1, true⟩
              : Config)
            (fun _ _ => (false, none)) (fun _ _ _ => (false, none))
            = ([], some (precheckMsg c' (hostsOf c'.1 c'.2).length 1)))
      ∧ (mainRun (⟨[(3232235776, 30)], pingCfgEx, tcpCfgEx, 1, true⟩
            : Config)
          (fun _ _ => (false, none))
          (fun _ _ _ => (false, none))).1.countP Effect.isProbe = 0
      ∧ (mainRun (⟨[(3232235776, 30)], pingCfgEx, tcpCfgEx, 1, true⟩
            : Config)
          (fun _ _ => (false, none))
          (fun _ _ _ => (false, none))).1.countP Effect.isLogWrite = 0) :=
  ⟨⟨by decide, by decide⟩,
   precheck_rejects_run
     (⟨[(3232235776, 30)], pingCfgEx, tcpCfgEx, 1, true⟩ : Config)
     (fun _ _ => (false, none)) (fun _ _ _ => (false, none))
     (3232235776, 30) (by decide) (by decide) (Or.inl rfl)⟩

/-- C5 counterexample: `main` bumps `port_stats[port]["total"]` once
per (alive host, port) pair, before `tcp_with_retry` runs (line 215) —
not once per probe attempt.  With retry = 1 and a target whose first
attempt fails and second succeeds, 2 attempts go on the wire but the
port's total is 1, refuting "total is incremented on every attempt". -/
theorem tcp_total_not_per_attempt :
    (tcpScan (fun _ _ i => (i == 1, if i == 1 then some 5 else none))
        tcpCfgEx [80] ["192.168.1.1"] initStats).attempts = 2
    ∧ ((tcpScan (fun _ _ i => (i == 1, if i == 1 then some 5 else none))
        tcpCfgEx [80] ["192.168.1.1"] initStats).stats 80).total = 1
    ∧ ¬ ((tcpScan (fun _ _ i => (i == 1, if i == 1 then some 5 else none))
        tcpCfgEx [80] ["192.168.1.1"] initStats).stats 80).total
      = (tcpScan (fun _ _ i => (i == 1, if i == 1 then some 5 else none))
        tcpCfgEx [80] ["192.168.1.1"] initStats).attempts := by
  refine ⟨rfl, rfl, by decide⟩

/-- C5 (amended): in the TCP phase, each port's `total` is incremented
exactly once per reachable address — per (host, port) pair, regardless
of how many attempts the retry wrapper issues — and its `success`
exactly once per reachable address whose retry wrapper succeeded on
that port, each success printed immediately, in iteration order. -/
theorem tcp_phase_increments
    (oracle : String → Nat → Nat → Bool × Option ℚ) (cfg : TcpCfg)
    (aliveIps : List String) (ports : List Nat)
    (hnd : ports.Nodup) (p : Nat) (hp : p ∈ ports) :
    ((tcpScan oracle cfg ports aliveIps initStats).stats p).total
        = aliveIps.length
    ∧ ((tcpScan oracle cfg ports aliveIps initStats).stats p).success
        = aliveIps.countP
            (fun ip => (tcp_with_retry (oracle ip p) cfg).1.1)
    ∧ (tcpScan oracle cfg ports aliveIps initStats).prints
        = aliveIps.flatMap (fun ip => ports.filterMap (fun port =>
            if (tcp_with_retry (oracle ip port) cfg).1.1
            then some (ip, port, (tcp_with_retry (oracle ip port) cfg).1.2)
            else none)) := by
  refine ⟨?_, ?_, tcpScan_prints oracle cfg ports aliveIps initStats⟩
  · rw [tcpScan_total]
    simp [initStats, List.count_eq_one_of_mem hnd hp]
  · rw [tcpScan_success_nodup oracle cfg ports hnd hp]
    simp [initStats]

theorem tcp_phase_increments_witness :
    ([(80 : Nat)].Nodup ∧ (80 : Nat) ∈ [(80 : Nat)])
    ∧ (((tcpScan (fun _ _ i => (i == 1, if i == 1 then some 5 else none))
          tcpCfgEx [80] ["192.168.1.1"] initStats).stats 80).total
        = ["192.168.1.1"].length
      ∧ ((tcpScan (fun _ _ i => (i == 1, if i == 1 then some 5 else none))
          tcpCfgEx [80] ["192.168.1.1"] initStats).stats 80).success
        = ["192.168.1.1"].countP (fun ip =>
            (tcp_with_retry
              ((fun _ _ i => ((i == 1 : Bool),
                if i == 1 then some (5 : ℚ) else none)) ip 80)
              tcpCfgEx).1.1)
      ∧ (tcpScan (fun _ _ i => (i == 1, if i == 1 then some 5 else none))
          tcpCfgEx [80] ["192.168.1.1"] initStats).prints
        = ["192.168.1.1"].flatMap (fun ip => [(80 : Nat)].filterMap
            (fun port =>
            if (tcp_with_retry
                ((fun _ _ i => ((i == 1 : Bool),
                  if i == 1 then some (5 : ℚ) else none)) ip port)
                tcpCfgEx).1.1
            then some (ip, port,
              (tcp_with_retry
                ((fun _ _ i => ((i == 1 : Bool),
                  if i == 1 then some (5 : ℚ) else none)) ip port)
                tcpCfgEx).1.2)
            else none))) :=
  ⟨⟨by decide, by decide⟩,
   tcp_phase_increments
     (fun _ _ i => (i == 1, if i == 1 then some 5 else none))
     tcpCfgEx ["192.168.1.1"] [80] (by decide) 80 (by decide)⟩

/-- C6: for every network wider than /31 (prefix ≤ 30) the enumerator
yields exactly the addresses strictly between the network and
broadcast addresses, in ascending order — the usable hosts, first to
last — and on `192.168.1.0/30` it yields exactly
`[192.168.1.1, 192.168.1.2]` (numerically,
`[3232235777, 3232235778]`). -/
theorem expand_network_usable_hosts :
    (∀ addr p : Nat, p ≤ 30 →
      (expand_network addr p).length = blockSize p - 2
      ∧ (∀ a, a ∈ expand_network addr p ↔
          networkAddr addr p < a ∧ a < broadcastAddr addr p)
      ∧ (expand_network addr p).Pairwise (· < ·))
    ∧ expand_network 3232235776 30 = [3232235777, 3232235778] := by
  constructor
  · intro addr p hp
    exact ⟨hostsOf_length addr p hp, mem_hostsOf addr p hp,
      hostsOf_pairwise addr p⟩
  · rfl

theorem expand_network_usable_hosts_witness :
    (24 : Nat) ≤ 30 ∧ (expand_network 167772160 24).length = blockSize 24 - 2 :=
  ⟨by decide, (expand_network_usable_hosts.1 167772160 24 (by decide)).1⟩

/-- C7: in `full` mode, `build_port_list` returns the 65535 ports
1-65535 and rewrites the TCP config once — `retry := 0` and
`rate_limit := max(rate_limit, 0.1)`, hence at least 0.1 — while in
`list` and `range` modes the config is returned unchanged (no
override). -/
theorem build_port_list_modes (cfg : TcpCfg) :
    (cfg.mode = "full" →
      build_port_list cfg = .ok (List.range' 1 65535,
        { cfg with retry := 0, rate_limit := max cfg.rate_limit (1 / 10) })
      ∧ (List.range' 1 65535).length = 65535
      ∧ (1 : ℚ) / 10 ≤ max cfg.rate_limit (1 / 10))
    ∧ (cfg.mode = "list" → build_port_list cfg = .ok (cfg.ports, cfg))
    ∧ (cfg.mode = "range" → build_port_list cfg
        = .ok (List.range' cfg.range_start
            (cfg.range_end + 1 - cfg.range_start), cfg)) := by
  refine ⟨fun h => ⟨?_, ?_, le_max_right _ _⟩, fun h => ?_, fun h => ?_⟩
  · unfold build_port_list
    rw [h]
    exact rfl
  · simp
  · unfold build_port_list
    rw [h]
    exact rfl
  · unfold build_port_list
    rw [h]
    exact rfl

theorem build_port_list_modes_witness :
    tcpCfgFull.mode = "full"
    ∧ (build_port_list tcpCfgFull = .ok (List.range' 1 65535,
        { tcpCfgFull with
            retry := 0, rate_limit := max tcpCfgFull.rate_limit (1 / 10) })
      ∧ (List.range' 1 65535).length = 65535
      ∧ (1 : ℚ) / 10 ≤ max tcpCfgFull.rate_limit (1 / 10)) :=
  ⟨rfl, (build_port_list_modes tcpCfgFull).1 rfl⟩

/-- C8: in both continuous monitors, a `KeyboardInterrupt` during the
loop is caught, the `finally` block writes the running summary
(TOTAL / SUCCESS / FAIL and the AVG / MIN / MAX RTT statistics of the
state reached) as the last log lines, and `main` returns normally; the
summary is likewise written on the unexpected-exception exit path. -/
theorem monitor_exit_writes_summary
    (oracleP : Nat → Bool × Option ℚ) (oracleT : Nat → Bool × ℚ)
    (n m : Nat) (reasonP reasonT : ExitReason) :
    ((pingMonitorExit oracleP n reasonP).1.getLast?
        = some (monSummary (pingMonLoop oracleP n))
      ∧ (pingMonitorExit oracleP n reasonP).2 = true)
    ∧ ((tcpMonitorExit oracleT m reasonT).1.getLast?
        = some (monSummary (tcpMonLoop oracleT m))
      ∧ (tcpMonitorExit oracleT m reasonT).2 = true) := by
  constructor
  · cases reasonP <;> exact ⟨rfl, rfl⟩
  · cases reasonT <;> exact ⟨rfl, rfl⟩

/-- C9: the per-port summary line never divides by zero — a port with
`total = 0` reports a rate of exactly 0 (the guard of line 227) — and
whenever the port list builds and the precheck passes, the summary
block is written with one entry per configured port, whatever
`tcp_scan.enable` is and even with no alive host. -/
theorem summary_rate_guard :
    (∀ s : Stats, s.total = 0 → rateOf s = 0)
    ∧ ∀ (cfg : Config) (pingO : String → Nat → Bool × Option ℚ)
        (tcpO : String → Nat → Nat → Bool × Option ℚ)
        (ports : List Nat) (tcpCfg : TcpCfg) (n : Nat),
        build_port_list cfg.tcp = Except.ok (ports, tcpCfg) →
        precheck_networks cfg.networks cfg.max_hosts = Except.ok n →
        ∃ pre stats aliveN, mainRun cfg pingO tcpO
          = (pre ++ summaryEffects aliveN ports stats, none) := by
  constructor
  · intro s h
    simp [rateOf, h]
  · intro cfg pingO tcpO ports tcpCfg n hb hp
    exact ⟨_, _, _, mainRun_ok_eq cfg pingO tcpO ports tcpCfg n hb hp⟩

theorem summary_rate_guard_witness :
    ((⟨0, 7⟩ : Stats).total = 0 ∧ rateOf (⟨0, 7⟩ : Stats) = 0)
    ∧ (build_port_list (⟨false, "list", [80], 0, 0, 3, 1, 1/2⟩ : TcpCfg)
        = Except.ok ([80], (⟨false, "list", [80], 0, 0, 3, 1, 1/2⟩ : TcpCfg))
      ∧ precheck_networks ([] : List (Nat × Nat)) 1024 = Except.ok 0
      ∧ ∃ pre stats aliveN,
          mainRun (⟨[], pingCfgEx,
              (⟨false, "list", [80], 0, 0, 3, 1, 1/2⟩ : TcpCfg),
              1024, true⟩ : Config)
            (fun _ _ => (false, none)) (fun _ _ _ => (false, none))
            = (pre ++ summaryEffects aliveN [80] stats, none)) :=
  ⟨⟨rfl, summary_rate_guard.1 ⟨0, 7⟩ rfl⟩,
   ⟨rfl, rfl,
    summary_rate_guard.2
      (⟨[], pingCfgEx, (⟨false, "list", [80], 0, 0, 3, 1, 1/2⟩ : TcpCfg),
        1024, true⟩ : Config)
      (fun _ _ => (false, none)) (fun _ _ _ => (false, none))
      [80] (⟨false, "list", [80], 0, 0, 3, 1, 1/2⟩ : TcpCfg) 0 rfl rfl⟩⟩

/-- C10: in both continuous monitors every loop iteration bumps
`total_count` exactly once and then exactly one of `success_count` and
`fail_count`, so after any number of iterations — hence at every point
the summary can be written — `total_count` equals
`success_count + fail_count`. -/
theorem monitor_total_eq_success_add_fail
    (oracleP : Nat → Bool × Option ℚ) (oracleT : Nat → Bool × ℚ)
    (n m : Nat) :
    ((pingMonLoop oracleP n).total_count = n
      ∧ (pingMonLoop oracleP n).total_count
        = (pingMonLoop oracleP n).success_count
          + (pingMonLoop oracleP n).fail_count)
    ∧ ((tcpMonLoop oracleT m).total_count = m
      ∧ (tcpMonLoop oracleT m).total_count
        = (tcpMonLoop oracleT m).success_count
          + (tcpMonLoop oracleT m).fail_count) := by
  have hp := pingMonLoop_counts oracleP n
  have ht := tcpMonLoop_counts oracleT m
  exact ⟨⟨hp.1, by omega⟩, ⟨ht.1, by omega⟩⟩

end NetProbe
